import Mathlib

/-!
Shallow embedding of `src/frigate-exporter.py` (Frigate recording export /
backup script) and verification of the frozen claims about it.

Modelling conventions:
* Python dicts used as string-keyed maps (`file_sizes`, `export_start_times`)
  are association lists `List (String × Nat)` with first-match lookup,
  in-place replacement on assignment, and first-occurrence removal on `del`
  (keys are unique under these operations, as in a dict).
* Wall-clock instants and file sizes are integers (epoch seconds / bytes).
  The configured timezone is modelled as a fixed UTC offset in seconds
  (the default `Asia/Shanghai` has a constant offset of +28800 and no DST).
* HTTP calls are an environment: each poll of `GET /api/exports` yields a
  list of export records and a view of the source filesystem, or fails
  (the `ok` flag false models a raised exception, caught by the script).
* The cooperative `should_exit` signal flag is modelled as never set
  (signal delivery is outside the scope of these claims).
-/

/-- Association-list lookup, first match wins (Python `dict.get`). -/
def lfind : List (String × Nat) → String → Option Nat
  | [], _ => none
  | (a, b) :: t, k => if a = k then some b else lfind t k

/-- Association-list assignment (Python `dict[k] = v`): replaces the first
binding of `k` in place, else appends at the end. -/
def lset : List (String × Nat) → String → Nat → List (String × Nat)
  | [], k, v => [(k, v)]
  | (a, b) :: t, k, v => if a = k then (k, v) :: t else (a, b) :: lset t k v

/-- Association-list removal (Python `del dict[k]`): removes the first
binding of `k`. -/
def lerase : List (String × Nat) → String → List (String × Nat)
  | [], _ => []
  | (a, b) :: t, k => if a = k then t else (a, b) :: lerase t k

/-- Substring test (Python `needle in hay`): `needle` occurs as a
contiguous substring of `hay`. -/
def strContains (hay needle : String) : Bool :=
  hay.data.tails.any (fun t => needle.data.isPrefixOf t)

/-- Split a character list at every occurrence of `sep`, keeping empty
segments (Python `str.split(sep)` / `os.path` component splitting). -/
def splitOnChar (sep : Char) : List Char → List (List Char)
  | [] => [[]]
  | c :: rest =>
    if c = sep then [] :: splitOnChar sep rest
    else
      match splitOnChar sep rest with
      | [] => [[c]]
      | g :: gs => (c :: g) :: gs

/-- Model of `os.path.basename` on POSIX: the part of the path after the
last `/` (empty when the path ends in `/`). -/
def pathBasename (p : String) : String :=
  String.mk (((splitOnChar ('/') p.data).getLast?).getD p.data)

/-- Model of `os.path.join a b` on POSIX for two components: if `b` is
absolute it wins; otherwise `b` is appended to `a`, inserting a `/`
separator unless `a` is empty or already ends in `/`. -/
def pathJoin (a b : String) : String :=
  if b.data.head? = some ('/') then b
  else if a = "" || a.data.getLast? = some ('/') then a ++ b
  else a ++ ("/") ++ b

/-- Embedding of `get_real_file_path` (src lines 224-242): an empty
(falsy) input yields the empty string, otherwise the base name of the
container path is joined to the configured source directory `src`.
The function is total: it never raises. -/
def get_real_file_path (src video_path : String) : String :=
  if video_path = "" then ""
  else pathJoin src (pathBasename video_path)

/-- Gregorian leap-year test. -/
def isLeap (y : Nat) : Bool :=
  (y % 4 = 0 && y % 100 ≠ 0) || (y % 400 = 0)

/-- Number of days in a month of the Gregorian calendar. -/
def daysInMonth (y m : Nat) : Nat :=
  if m = 2 then (if isLeap y then 29 else 28)
  else if m = 4 || m = 6 || m = 9 || m = 11 then 30
  else 31

/-- Character list consisting only of ASCII digits, nonempty. -/
def allDigits (l : List Char) : Bool :=
  !l.isEmpty && l.all Char.isDigit

/-- Numeric value of a digit string, most significant digit first. -/
def digitsVal (l : List Char) : Nat :=
  l.foldl (fun acc c => acc * 10 + (c.toNat - ('0').toNat)) 0

/-- Model of Python `datetime.strptime(date, "%Y-%m-%d")` restricted to
what the script needs: `%Y` matches exactly four digits, `%m` and `%d`
match one or two digits, the hyphens are literal, the whole string must be
consumed, and the resulting (year, month, day) must name a real Gregorian
calendar date (month 1-12, day within the month) or a `ValueError` is
raised (`none` here). -/
def strptimeYmd (s : String) : Option (Nat × Nat × Nat) :=
  match splitOnChar ('-') s.data with
  | [ys, ms, ds] =>
    if allDigits ys = true ∧ ys.length = 4 ∧ allDigits ms = true
        ∧ ms.length ≤ 2 ∧ allDigits ds = true ∧ ds.length ≤ 2 then
      let y := digitsVal ys
      let m := digitsVal ms
      let d := digitsVal ds
      if 1 ≤ m ∧ m ≤ 12 ∧ 1 ≤ d ∧ d ≤ daysInMonth y m then
        some (y, m, d)
      else none
    else none
  | _ => none

/-- Zero-pad a natural number to width `w`. -/
def padNat (w n : Nat) : String :=
  let s := toString n
  if s.length < w then String.mk (List.replicate (w - s.length) ('0')) ++ s else s

/-- Model of `date.strftime("%Y-%m-%d")`: zero-padded rendering of a
(year, month, day) triple. -/
def fmtYmd (y m d : Nat) : String :=
  padNat 4 y ++ ("-") ++ padNat 2 m ++ ("-") ++ padNat 2 d

/-- Days from the civil epoch 1970-01-01 to the given Gregorian date
(standard days-from-civil algorithm, as used by the platform's
calendar/timestamp conversion). -/
def daysFromCivil (y m d : Nat) : Int :=
  let yi : Int := if m ≤ 2 then (y : Int) - 1 else (y : Int)
  let era : Int := (if 0 ≤ yi then yi else yi - 399) / 400
  let yoe : Int := yi - era * 400
  let mp : Int := if 2 < m then (m : Int) - 3 else (m : Int) + 9
  let doy : Int := (153 * mp + 2) / 5 + (d : Int) - 1
  let doe : Int := yoe * 365 + yoe / 4 - yoe / 100 + doy
  era * 146097 + doe - 719468

/-- Epoch seconds of wall-clock time `y-m-d h:mi:s` in a timezone that is
a fixed offset of `tzOff` seconds east of UTC (model of
`CHINA_TZ.localize(datetime(...)).timestamp()`). -/
def epochOf (tzOff : Int) (y m d : Nat) (h mi s : Int) : Int :=
  daysFromCivil y m d * 86400 + h * 3600 + mi * 60 + s - tzOff

/-- Embedding of the time-window computation of
`export_previous_day_recordings` (src lines 152-157): start is
`startHour:00:00`, end is `endHour:59:59` of the target day, both
converted to epoch seconds in the configured timezone. -/
def timeWindow (tzOff : Int) (y m d : Nat) (sh eh : Int) : Int × Int :=
  (epochOf tzOff y m d sh 0 0, epochOf tzOff y m d eh 59 59)

/-- An export record as returned by `GET /api/exports` (external data,
read-only): the fields the script reads. `in_progress` already carries the
`e.get("in_progress", False)` default. -/
structure ExportRecord where
  id : String
  camera : String
  name : String
  video_path : String
  in_progress : Bool
deriving DecidableEq, Repr

/-- Environment of one call to `export_previous_day_recordings`:
the camera list discovered from `/api/config` (with its hardcoded
fallback already applied), the default target date `now - EXPORT_DAYS_AGO`
as a calendar triple, the outcome of the POST trigger per camera
(`Except.error` is a transport error, `Except.ok s` an HTTP status), and
the wall-clock time `time.time()` observed at each camera's successful
request. -/
structure ExportEnv where
  discovered : List String
  defaultDate : Nat × Nat × Nat
  post : String → Except Unit Nat
  reqClock : String → Nat

/-- Trigger request accepted: HTTP status 200 or 201 (src line 187). -/
def isAccepted : Except Unit Nat → Bool
  | Except.ok 200 => true
  | Except.ok 201 => true
  | _ => false

/-- Embedding of the per-camera trigger loop of
`export_previous_day_recordings` (src lines 171-201). Accumulates
(exported records, `export_start_times` map, trace of cameras POSTed).
A non-success status or a transport error logs and continues. -/
def runExports (env : ExportEnv) (ts : Int) :
    List String → (List (String × Int) × List (String × Nat) × List String) →
    List (String × Int) × List (String × Nat) × List String
  | [], acc => acc
  | c :: rest, (files, times, reqs) =>
    if isAccepted (env.post c) then
      runExports env ts rest
        (files ++ [(c, ts)], lset times c (env.reqClock c), reqs ++ [c])
    else
      runExports env ts rest (files, times, reqs ++ [c])

/-- Date-argument resolution of `export_previous_day_recordings`
(src lines 130-140): Python `if date:` is false for `None` and for the
empty string, both of which fall back to the default date; a non-empty
string must parse with `strptime(date, "%Y-%m-%d")` or the function
returns early. -/
def resolveDate (env : ExportEnv) : Option String → Option (Nat × Nat × Nat)
  | none => some env.defaultDate
  | some d => if d = "" then some env.defaultDate else strptimeYmd d

/-- Hour-range resolution of `export_previous_day_recordings`
(src lines 143-150): absent means the whole day (0, 23); a given pair must
satisfy `0 <= start <= 23`, `0 <= end <= 23` and `start <= end`. -/
def resolveHours : Option (Int × Int) → Option (Int × Int)
  | none => some (0, 23)
  | some (sh, eh) =>
    if 0 ≤ sh ∧ sh ≤ 23 ∧ 0 ≤ eh ∧ eh ≤ 23 ∧ sh ≤ eh then some (sh, eh)
    else none

/-- Embedding of `export_previous_day_recordings` (src lines 118-201).
`st0` is the global `export_start_times` map before the call; `cameras`
is `None` to discover cameras or an explicit list. Returns the list of
`{camera, date}` records appended on success, the updated
`export_start_times`, and the trace of cameras for which a trigger POST
was issued (in order). On a date or hour-range error it returns the empty
list, having issued no request. -/
def export_previous_day_recordings (env : ExportEnv) (tzOff : Int)
    (st0 : List (String × Nat)) (cameras : Option (List String))
    (date : Option String) (timeRange : Option (Int × Int)) :
    List (String × Int) × List (String × Nat) × List String :=
  match resolveDate env date with
  | none => ([], st0, [])
  | some (y, m, d) =>
    match resolveHours timeRange with
    | none => ([], st0, [])
    | some (sh, eh) =>
      let w := timeWindow tzOff y m d sh eh
      let cams := cameras.getD env.discovered
      runExports env w.fst cams ([], st0, [])

/-- Environment of one iteration of the polling loop of
`check_export_status`: `ok = false` models `requests.get` raising (the
`except` branch logs and sleeps); otherwise `exports` is the decoded
response of `GET /api/exports` and `fs` maps a resolved host path to the
current size of the file, or `none` when `os.path.exists` is false. -/
structure PollEnv where
  ok : Bool
  exports : List ExportRecord
  fs : String → Option Nat

/-- Mutable state of the polling loop of `check_export_status`:
the pending camera set (src line 289) and the `file_sizes` ledger
(src line 292). -/
structure CesState where
  pending : List String
  ledger : List (String × Nat)
deriving Repr

/-- Observable actions of the polling loop: one `query` per attempted
`GET /api/exports`, one `sleep` per 30-second `time.sleep(30)`. -/
inductive CesEvent where
  | query
  | sleep
deriving DecidableEq, Repr

/-- Export records matching a camera for the target date (src lines
307-309): the record's camera equals the pending camera and the target
date string occurs inside the record's name. -/
def matchedExports (exports : List ExportRecord) (tds camera : String) :
    List ExportRecord :=
  exports.filter (fun e => e.camera = camera && strContains e.name tds)

/-- Embedding of the file-stability scan of `check_export_status`
(src lines 316-329): walk the matched records; for a record whose
resolved file exists, read its current size, fetch the last recorded size
from the ledger defaulting to the current size, store the current size,
and stop (Python `break`) declaring instability as soon as current and
last differ. A record whose resolved file does not exist is passed over
without any effect. Returns the stability verdict and the updated
ledger. -/
def stabilityScan (src : String) (fs : String → Option Nat)
    (ledger : List (String × Nat)) :
    List ExportRecord → Bool × List (String × Nat)
  | [] => (true, ledger)
  | e :: rest =>
    match fs (get_real_file_path src e.video_path) with
    | none => stabilityScan src fs ledger rest
    | some cur =>
      if cur = (lfind ledger (get_real_file_path src e.video_path)).getD cur
      then
        stabilityScan src fs
          (lset ledger (get_real_file_path src e.video_path) cur) rest
      else (false, lset ledger (get_real_file_path src e.video_path) cur)

/-- Embedding of the per-camera body of the polling loop of
`check_export_status` (src lines 305-361), deciding for one pending
camera whether it is confirmed complete this iteration. Returns
(remove-from-pending?, updated ledger). The three branches of the source:
no in-progress matches and some match → stability scan, and on success
the camera's ledger entries are purged (src lines 331-339); no match at
all → still waiting; otherwise → record the current size of every
in-progress record whose resolved file exists (src lines 347-361). -/
def processCamera (env : PollEnv) (tds src camera : String)
    (ledger : List (String × Nat)) : Bool × List (String × Nat) :=
  let camera_exports := matchedExports env.exports tds camera
  let in_progress_exports := camera_exports.filter (fun e => e.in_progress)
  if in_progress_exports.isEmpty && !camera_exports.isEmpty then
    let r := stabilityScan src env.fs ledger camera_exports
    if r.fst then
      (true, camera_exports.foldl
        (fun lg e => lerase lg (get_real_file_path src e.video_path)) r.snd)
    else (false, r.snd)
  else if camera_exports.isEmpty then (false, ledger)
  else
    (false, in_progress_exports.foldl
      (fun lg e =>
        let real := get_real_file_path src e.video_path
        match env.fs real with
        | some sz => lset lg real sz
        | none => lg) ledger)

/-- One pass over the snapshot `list(pending_cameras)` (src line 305),
removing each camera that `processCamera` confirms and threading the
shared `file_sizes` ledger. -/
def pollCameras (env : PollEnv) (tds src : String) :
    List String → List String × List (String × Nat) →
    List String × List (String × Nat)
  | [], acc => acc
  | c :: rest, (pend, lg) =>
    let r := processCamera env tds src c lg
    pollCameras env tds src rest
      ((if r.fst then pend.erase c else pend), r.snd)

/-- One iteration of the polling loop of `check_export_status`
(src lines 295-361): when the `GET /api/exports` raises (`ok = false`)
the state is unchanged; otherwise every camera of the pending snapshot is
processed in order. -/
def pollOnce (env : PollEnv) (tds src : String) (st : CesState) : CesState :=
  if env.ok then
    let r := pollCameras env tds src st.pending (st.pending, st.ledger)
    ⟨r.fst, r.snd⟩
  else st

/-- Number of poll iterations the deadline admits: iteration `i` starts at
elapsed time `30 * i` seconds (processing time is negligible next to the
30-second sleeps), and the `while` guard admits it exactly when
`30 * i < maxWait`. -/
def cesK (maxWait : Nat) : Nat := (maxWait + 29) / 30

/-- Embedding of the polling loop of `check_export_status`
(src lines 294-385), peeled as structural recursion on a fuel that is at
least the number of iterations the guard can admit (`cesGoF` is always
called with `fuel = cesK maxWait - i`, so the fuel never runs out while
the `while` guard still holds). Each admitted iteration attempts one
`GET /api/exports` (a `query` event, also when it raises), processes the
pending snapshot, and either returns success at once when the pending set
has emptied (src line 374) or sleeps 30 seconds (a `sleep` event, src
lines 371/378) and continues. When the guard fails the loop falls through
to src lines 380-385, reporting the cameras still pending as unresolved
and returning whether the pending set is empty. -/
def cesGoF (envs : Nat → PollEnv) (maxWait : Nat) (tds src : String) :
    Nat → Nat → CesState → List CesEvent →
    Bool × List String × List CesEvent
  | 0, _, st, tr => (st.pending.isEmpty, st.pending, tr)
  | fuel + 1, i, st, tr =>
    if 30 * i < maxWait ∧ st.pending ≠ [] then
      let st' := pollOnce (envs i) tds src st
      if st'.pending = [] then (true, [], tr ++ [CesEvent.query])
      else cesGoF envs maxWait tds src fuel (i + 1) st'
        (tr ++ [CesEvent.query, CesEvent.sleep])
    else (st.pending.isEmpty, st.pending, tr)

/-- Embedding of `check_export_status` (src lines 264-385) with the
target date string already resolved (the claims about this function cover
the loop, src lines 289-385; the date-argument prologue at src lines
277-286 follows `resolveDate`). Initial state: pending set built from the
camera list (`set(cameras)` = first-occurrence dedup), empty `file_sizes`
ledger. Returns (result, cameras reported unresolved, event trace). -/
def check_export_status (envs : Nat → PollEnv) (maxWait : Nat)
    (cameras : List String) (tds src : String) :
    Bool × List String × List CesEvent :=
  cesGoF envs maxWait tds src (cesK maxWait) 0 ⟨cameras.eraseDups, []⟩ []

/-- State of the polling loop after running iterations `i, i+1, ...,
i+n-1` from state `st` (the reference trajectory the loop follows). -/
def cesStateFrom (envs : Nat → PollEnv) (tds src : String) :
    Nat → CesState → Nat → CesState
  | _, st, 0 => st
  | i, st, n + 1 =>
    cesStateFrom envs tds src (i + 1) (pollOnce (envs i) tds src st) n

/-- State of the polling loop after its first `n` iterations, starting
from the initial state of `check_export_status`. -/
def cesStateAt (envs : Nat → PollEnv) (tds src : String)
    (cameras : List String) (n : Nat) : CesState :=
  cesStateFrom envs tds src 0 ⟨cameras.eraseDups, []⟩ n

/-- A file of the destination directory listing: its name, its
modification time in epoch seconds (`os.path.getmtime`, modelled at
whole-second granularity), and whether `os.path.isfile` holds. -/
structure FsFile where
  name : String
  mtime : Int
  isRegular : Bool
deriving DecidableEq, Repr

/-- Embedding of the deletion loop of `clean_old_exports` (src lines
488-508): every regular file whose modification time is strictly before
the cutoff is removed. Comparing the `CHINA_TZ`-normalized aware
datetimes of src lines 495-502 compares the underlying instants (the
host's local timezone, used by `datetime.fromtimestamp`, is the
configured timezone), so the comparison is `mtime < cutoff` on epoch
seconds. Returns (deleted files, remaining listing), preserving order. -/
def cleanSweep (cutoff : Int) : List FsFile → List FsFile × List FsFile
  | [] => ([], [])
  | f :: rest =>
    let r := cleanSweep cutoff rest
    if f.isRegular && decide (f.mtime < cutoff) then (f :: r.fst, r.snd)
    else (r.fst, f :: r.snd)

/-- Embedding of `clean_old_exports` (src lines 473-513): the cutoff is
`now - EXPORT_RETENTION_DAYS` days (`timedelta(days=n)` is exactly
`n * 86400` seconds) and the destination listing is swept. -/
def clean_old_exports (now : Int) (retentionDays : Nat)
    (files : List FsFile) : List FsFile × List FsFile :=
  cleanSweep (now - (retentionDays : Int) * 86400) files

/-- Environment of one call to `check_and_move_exported_files`:
whether `GET /api/exports` succeeds, its decoded records, whether the
destination directory already exists, and the source filesystem
(existence of resolved host paths). -/
structure MoveEnv where
  ok : Bool
  exports : List ExportRecord
  destDirExists : Bool
  fs : String → Bool

/-- Observable actions of `check_and_move_exported_files`: creating the
destination directory (`os.makedirs`, only when absent), moving one file
(`shutil.move`, named by its base filename), and the best-effort
`DELETE /api/export/{id}`. -/
inductive MvEvent where
  | mkdirDest
  | move (filename : String)
  | delRecord (id : String)
deriving DecidableEq, Repr

/-- Date resolution shared by `check_export_status` and
`check_and_move_exported_files` (src lines 277-286 and 406-415): absent
or empty (falsy) date uses the default target date string; a non-empty
date must parse and is re-rendered zero-padded by `strftime`. -/
def resolveTds (dateOpt : Option String) (tdsDefault : String) :
    Option String :=
  match dateOpt with
  | none => some tdsDefault
  | some d =>
    if d = "" then some tdsDefault
    else (strptimeYmd d).map (fun p => fmtYmd p.1 p.2.1 p.2.2)

/-- Embedding of the per-record loop of `check_and_move_exported_files`
(src lines 425-466): a record whose `video_path` is empty or whose
resolved source file does not exist is logged and skipped; otherwise the
file is moved (disappearing from the source filesystem, which is
threaded through) and the remote record is deleted best-effort when it
has an id. Returns (moved-file count, event trace). -/
def moveLoop (src : String) (fs : String → Bool) :
    List ExportRecord → Nat × List MvEvent
  | [] => (0, [])
  | e :: rest =>
    let real := get_real_file_path src e.video_path
    if e.video_path = "" || !fs real then moveLoop src fs rest
    else
      let fs' := fun p => if p = real then false else fs p
      let r := moveLoop src fs' rest
      (r.fst + 1,
        (MvEvent.move (pathBasename real) ::
          (if e.id ≠ "" then [MvEvent.delRecord e.id] else [])) ++ r.snd)

/-- Embedding of `check_and_move_exported_files` (src lines 387-471).
When the export-list query raises, nothing at all happens (the
`os.makedirs` at src line 402 comes after the query). Otherwise the
destination directory is created when absent, the date argument is
resolved (an unparseable date returns after the directory creation), the
records are filtered to the given cameras, not in progress, matching the
target date string (src lines 418-421), and the move loop runs. -/
def check_and_move_exported_files (env : MoveEnv) (cameras : List String)
    (dateOpt : Option String) (src tdsDefault : String) :
    Nat × List MvEvent :=
  if env.ok then
    let mk : List MvEvent :=
      if env.destDirExists then [] else [MvEvent.mkdirDest]
    match resolveTds dateOpt tdsDefault with
    | none => (0, mk)
    | some tds =>
      let targets := env.exports.filter
        (fun e => decide (e.camera ∈ cameras) && !e.in_progress
          && strContains e.name tds)
      let r := moveLoop src env.fs targets
      (r.fst, mk ++ r.snd)
  else (0, [])

/-- A completed (not in-progress) export record for camera `cam` on
2024-01-02 whose container path names `exp.mp4`. -/
def recDone : ExportRecord :=
  { id := "77", camera := "cam", name := "cam_2024-01-02_05", 
    video_path := "/media/frigate/exports/exp.mp4", in_progress := false }

/-- The same export job while still in progress. -/
def recRunning : ExportRecord := { recDone with in_progress := true }

/-- Poll environment: the job is finished but its resolved host file
`/src/exp.mp4` is missing from disk. -/
def envGone : PollEnv :=
  { ok := true, exports := [recDone], fs := fun _ => none }

/-- Poll environment: the job is finished and the file reads `sz` bytes. -/
def envDoneAt (sz : Nat) : PollEnv :=
  { ok := true, exports := [recDone],
    fs := fun p => if p = "/src/exp.mp4" then some sz else none }

/-- Poll environment: the job is still in progress, the file reads `sz`
bytes so far. -/
def envRunningAt (sz : Nat) : PollEnv :=
  { ok := true, exports := [recRunning],
    fs := fun p => if p = "/src/exp.mp4" then some sz else none }

/-- Poll sequence of the first spec scenario: in progress at 100 bytes,
then finished at 100 bytes. -/
def envsStable (n : Nat) : PollEnv :=
  if n = 0 then envRunningAt 100 else envDoneAt 100

/-- Poll sequence of the second spec scenario: in progress at 100 bytes,
then finished but grown to 150 bytes, then finished at 150 bytes. -/
def envsGrow (n : Nat) : PollEnv :=
  if n = 0 then envRunningAt 100
  else if n = 1 then envDoneAt 150 else envDoneAt 150

/-- Poll sequence in which the job never finishes. -/
def envsStuck (_ : Nat) : PollEnv := envRunningAt 100

/-- Trigger environment: every POST is accepted with status 200 at
wall-clock time 5000, camera discovery unused. -/
def envAccept : ExportEnv :=
  { discovered := [], defaultDate := (2024, 1, 2),
    post := fun _ => Except.ok 200, reqClock := fun _ => 5000 }

/-- Trigger environment: camera `a` is accepted (201) at time 41,
camera `b` gets HTTP 500, camera `c` hits a transport error, camera `d`
is accepted (200) at time 44. -/
def envMixed : ExportEnv :=
  { discovered := [],
    defaultDate := (2024, 1, 2),
    post := fun c =>
      if c = "a" then Except.ok 201
      else if c = "b" then Except.ok 500
      else if c = "c" then Except.error ()
      else Except.ok 200,
    reqClock := fun c => if c = "a" then 41 else 44 }

/-- Move environment: the query succeeds, the destination directory is
absent, two finished records for 2024-01-02 of which only the first
(`exp.mp4`) exists on disk at its resolved path. -/
def envMove : MoveEnv :=
  { ok := true,
    exports := [recDone,
      { id := "78", camera := "cam", name := "cam_2024-01-02_06",
        video_path := "/media/frigate/exports/ghost.mp4",
        in_progress := false }],
    destDirExists := false,
    fs := fun p => p = "/src/exp.mp4" }

theorem lfind_lset (l : List (String × Nat)) (k k' : String) (v : Nat) :
    lfind (lset l k v) k' = if k = k' then some v else lfind l k' := by
  induction l with
  | nil => simp [lset, lfind]
  | cons hd t ih =>
    obtain ⟨a, b⟩ := hd
    by_cases hak : a = k
    · subst hak
      simp only [lset, if_pos rfl, lfind]
      split_ifs <;> rfl
    · by_cases hak' : a = k'
      · subst hak'
        simp [lset, hak, lfind, Ne.symm hak]
      · simp [lset, hak, lfind, hak', ih]

theorem stabilityScan_cons_none (src : String) (fs : String → Option Nat)
    (lg : List (String × Nat)) (e : ExportRecord) (rest : List ExportRecord)
    (hfs : fs (get_real_file_path src e.video_path) = none) :
    stabilityScan src fs lg (e :: rest) = stabilityScan src fs lg rest := by
  simp only [stabilityScan, hfs]

theorem stabilityScan_cons_stable (src : String) (fs : String → Option Nat)
    (lg : List (String × Nat)) (e : ExportRecord) (rest : List ExportRecord)
    (cur : Nat) (hfs : fs (get_real_file_path src e.video_path) = some cur)
    (hst : cur = (lfind lg (get_real_file_path src e.video_path)).getD cur) :
    stabilityScan src fs lg (e :: rest)
      = stabilityScan src fs
          (lset lg (get_real_file_path src e.video_path) cur) rest := by
  simp only [stabilityScan, hfs, if_pos hst]

theorem stabilityScan_cons_moved (src : String) (fs : String → Option Nat)
    (lg : List (String × Nat)) (e : ExportRecord) (rest : List ExportRecord)
    (cur : Nat) (hfs : fs (get_real_file_path src e.video_path) = some cur)
    (hst : cur ≠ (lfind lg (get_real_file_path src e.video_path)).getD cur) :
    stabilityScan src fs lg (e :: rest)
      = (false, lset lg (get_real_file_path src e.video_path) cur) := by
  simp only [stabilityScan, hfs, if_neg hst]

/-- Characterization of the stability scan when the resolved paths of the
scanned records are pairwise distinct: the scan succeeds iff every record
whose resolved file exists reads a size equal to the ledger's previous
record for it, a path with no previous record counting as stable. -/
theorem stabilityScan_true_iff (src : String) (fs : String → Option Nat)
    (l : List ExportRecord)
    (hnd : (l.map (fun e => get_real_file_path src e.video_path)).Nodup) :
    ∀ lg, ((stabilityScan src fs lg l).fst = true ↔
      ∀ e ∈ l, ∀ sz, fs (get_real_file_path src e.video_path) = some sz →
        (lfind lg (get_real_file_path src e.video_path)).getD sz = sz) := by
  induction l with
  | nil => intro lg; simp [stabilityScan]
  | cons e rest ih =>
    intro lg
    simp only [List.map_cons, List.nodup_cons, List.mem_map] at hnd
    obtain ⟨hne, hnd'⟩ := hnd
    cases hfs : fs (get_real_file_path src e.video_path) with
    | none =>
      rw [stabilityScan_cons_none src fs lg e rest hfs, ih hnd' lg]
      constructor
      · intro h e' he' sz hsz
        rcases List.mem_cons.1 he' with he' | he'
        · subst he'; rw [hfs] at hsz; cases hsz
        · exact h e' he' sz hsz
      · intro h e' he' sz hsz
        exact h e' (List.mem_cons_of_mem _ he') sz hsz
    | some cur =>
      by_cases hstable :
          cur = (lfind lg (get_real_file_path src e.video_path)).getD cur
      · rw [stabilityScan_cons_stable src fs lg e rest cur hfs hstable,
          ih hnd' _]
        constructor
        · intro h e' he' sz hsz
          rcases List.mem_cons.1 he' with he' | he'
          · subst he'
            rw [hfs] at hsz
            cases hsz
            exact hstable.symm
          · have hpath : get_real_file_path src e.video_path
                ≠ get_real_file_path src e'.video_path := by
              intro hc
              exact hne ⟨e', he', hc.symm⟩
            have := h e' he' sz hsz
            rwa [lfind_lset, if_neg hpath] at this
        · intro h e' he' sz hsz
          have hpath : get_real_file_path src e.video_path
              ≠ get_real_file_path src e'.video_path := by
            intro hc
            exact hne ⟨e', he', hc.symm⟩
          rw [lfind_lset, if_neg hpath]
          exact h e' (List.mem_cons_of_mem _ he') sz hsz
      · rw [stabilityScan_cons_moved src fs lg e rest cur hfs hstable]
        simp only [Bool.false_eq_true, false_iff]
        intro h
        exact hstable ((h e (List.mem_cons_self e rest) cur hfs).symm)

/-- The per-camera loop body confirms a camera exactly when no matching
record is in progress, some matching record exists, and the stability
scan succeeds. -/
theorem processCamera_fst (env : PollEnv) (tds src camera : String)
    (lg : List (String × Nat)) :
    (processCamera env tds src camera lg).fst
      = (((matchedExports env.exports tds camera).filter
            (fun e => e.in_progress)).isEmpty
         && !(matchedExports env.exports tds camera).isEmpty
         && (stabilityScan src env.fs lg
              (matchedExports env.exports tds camera)).fst) := by
  simp only [processCamera]
  split_ifs with hA hr hce
  · simp_all
  · simp_all
  · simp_all
  · simp_all

/-- C1 counterexample: with one export record for camera `cam` matching
the target date, marked not in progress, whose resolved host file
`/src/exp.mp4` is missing from disk, the poll iteration nevertheless
removes `cam` from the pending set: clause (b) of the claim (every
matching record's resolved host file exists on disk) does not hold, yet
the camera is removed. -/
theorem c1_counterexample :
    (pollOnce envGone ("2024-01-02") ("/src") ⟨["cam"], []⟩).pending = [] ∧
    matchedExports envGone.exports ("2024-01-02") ("cam") = [recDone] ∧
    recDone.in_progress = false ∧
    envGone.fs (get_real_file_path ("/src") recDone.video_path) = none := by
  exact ⟨by decide, by decide, rfl, rfl⟩

/-- C1 (amended): in a poll iteration of `check_export_status`, a pending
camera is removed exactly when (a) no export record matching the camera
and target date string is marked in-progress, at least one matching
record exists, and (b) every matching record whose resolved host file
exists on disk has an observed size equal to the size recorded at the
immediately preceding observation of that path, a path with no previously
recorded size counting as stable; records whose resolved file is missing
from disk are not checked and do not block removal. (Stated for the
per-camera decision with the ledger as it stands when the camera is
processed, here exhibited as the whole iteration on a single-camera
pending set; the resolved paths of the matching records are assumed
pairwise distinct.) -/
theorem c1_removal_conditions (env : PollEnv) (tds src camera : String)
    (lg : List (String × Nat)) (hok : env.ok = true)
    (hnd : ((matchedExports env.exports tds camera).map
        (fun e => get_real_file_path src e.video_path)).Nodup) :
    (pollOnce env tds src ⟨[camera], lg⟩).pending
        = (if (processCamera env tds src camera lg).fst then []
           else [camera]) ∧
    ((processCamera env tds src camera lg).fst = true ↔
      ((matchedExports env.exports tds camera).filter
          (fun e => e.in_progress) = []
       ∧ matchedExports env.exports tds camera ≠ []
       ∧ ∀ e ∈ matchedExports env.exports tds camera,
           ∀ sz, env.fs (get_real_file_path src e.video_path) = some sz →
             (lfind lg (get_real_file_path src e.video_path)).getD sz
               = sz)) := by
  constructor
  · simp only [pollOnce, hok, if_true, pollCameras]
    by_cases hr : (processCamera env tds src camera lg).fst
    · simp [pollCameras, hr, List.erase_cons_head]
    · simp [pollCameras, hr]
  · rw [processCamera_fst]
    simp only [Bool.and_eq_true]
    constructor
    · intro h
      obtain ⟨⟨hA, hB⟩, hC⟩ := h
      refine ⟨List.isEmpty_iff.mp hA, ?_,
        (stabilityScan_true_iff src env.fs _ hnd lg).mp hC⟩
      intro hc
      rw [hc] at hB
      simp at hB
    · rintro ⟨hA, hB, hC⟩
      refine ⟨⟨List.isEmpty_iff.mpr hA, ?_⟩,
        (stabilityScan_true_iff src env.fs _ hnd lg).mpr hC⟩
      simpa [List.isEmpty_iff] using hB

/-- Witness for `c1_removal_conditions`: a single finished record whose
file exists at 100 bytes, with the ledger already holding 100 for it, is
confirmed. -/
theorem c1_removal_conditions_witness :
    (processCamera (envDoneAt 100) ("2024-01-02") ("/src") ("cam")
        [(("/src/exp.mp4" : String), 100)]).fst = true := by
  refine ((c1_removal_conditions (envDoneAt 100) ("2024-01-02") ("/src")
      ("cam") [(("/src/exp.mp4" : String), 100)] rfl (by decide)).2).mpr ?_
  refine ⟨by decide, by decide, ?_⟩
  intro e he sz hsz
  have hme : matchedExports (envDoneAt 100).exports ("2024-01-02") ("cam")
      = [recDone] := by decide
  rw [hme] at he
  simp only [List.mem_singleton] at he
  subst he
  have h100 : (envDoneAt 100).fs
      (get_real_file_path ("/src") recDone.video_path) = some 100 := by
    decide
  rw [h100] at hsz
  cases hsz
  decide

/-- C2 counterexample: a camera whose single matching record is already
not in progress and whose file (at 100 bytes) had never been observed
before is confirmed complete on the very first poll — the run performs
exactly one status query (a single size observation), not two consecutive
equal readings, because the ledger lookup defaults to the current size on
a first observation. -/
theorem c2_counterexample :
    check_export_status (fun _ => envDoneAt 100) 7200 ["cam"]
        ("2024-01-02") ("/src") = (true, [], [CesEvent.query]) := by
  decide

/-- C2 (amended): for a pending camera with a single matching record that
is no longer in progress and whose resolved file exists, the camera is
confirmed exactly when the observed size equals the previously recorded
size whenever one exists — so 100 then 150 stays pending and 100 then 100
confirms on the second reading, as in the two spec scenarios below, but a
file with no previously recorded size is treated as stable immediately
and can be confirmed on a single poll. -/
theorem c2_stability_confirmation (env : PollEnv) (tds src camera : String)
    (lg : List (String × Nat)) (e : ExportRecord) (cur : Nat)
    (hm : matchedExports env.exports tds camera = [e])
    (hip : e.in_progress = false)
    (hfs : env.fs (get_real_file_path src e.video_path) = some cur) :
    ((processCamera env tds src camera lg).fst = true ↔
      ∀ last, lfind lg (get_real_file_path src e.video_path) = some last →
        cur = last) ∧
    check_export_status envsStable 7200 ["cam"] ("2024-01-02") ("/src")
      = (true, [], [CesEvent.query, CesEvent.sleep, CesEvent.query]) ∧
    check_export_status envsGrow 7200 ["cam"] ("2024-01-02") ("/src")
      = (true, [], [CesEvent.query, CesEvent.sleep, CesEvent.query,
          CesEvent.sleep, CesEvent.query]) := by
  refine ⟨?_, by decide, by decide⟩
  rw [processCamera_fst, hm]
  have hfe : List.filter (fun e => e.in_progress) [e] = [] := by
    simp [List.filter_cons, hip]
  rw [hfe]
  by_cases hst : cur = (lfind lg (get_real_file_path src e.video_path)).getD cur
  · rw [stabilityScan_cons_stable src env.fs lg e [] cur hfs hst]
    simp only [stabilityScan, List.isEmpty_nil, List.isEmpty_cons,
      Bool.not_false, Bool.and_self, Bool.and_true, true_iff]
    intro last hl
    rw [hl] at hst
    simpa using hst
  · rw [stabilityScan_cons_moved src env.fs lg e [] cur hfs hst]
    simp only [List.isEmpty_nil, List.isEmpty_cons, Bool.not_false,
      Bool.and_self, Bool.and_true, Bool.and_false, Bool.false_eq_true,
      false_iff]
    intro h
    cases hlf : lfind lg (get_real_file_path src e.video_path) with
    | none => rw [hlf] at hst; simp at hst
    | some last =>
      rw [hlf] at hst
      exact hst (by simpa using h last hlf)

/-- Witness for `c2_stability_confirmation`: with 100 bytes recorded in
the ledger and the file now reading 150 bytes, the camera is not
confirmed. -/
theorem c2_stability_confirmation_witness :
    (processCamera (envDoneAt 150) ("2024-01-02") ("/src") ("cam")
        [(("/src/exp.mp4" : String), 100)]).fst = false := by
  have h := (c2_stability_confirmation (envDoneAt 150) ("2024-01-02")
      ("/src") ("cam") [(("/src/exp.mp4" : String), 100)] recDone 150
      (by decide) rfl (by decide)).1
  rw [← Bool.not_eq_true]
  intro hc
  have h100 := h.mp hc 100 (by decide)
  exact absurd h100 (by decide)

theorem lt_cesK (maxWait i : Nat) : i < cesK maxWait ↔ 30 * i < maxWait := by
  unfold cesK
  omega

theorem pollOnce_of_empty (env : PollEnv) (tds src : String)
    (st : CesState) (h : st.pending = []) :
    pollOnce env tds src st = st := by
  unfold pollOnce
  split_ifs with hok
  · rw [h]
    simp [pollCameras]
    cases st
    simp_all
  · rfl

/-- Characterization of the fueled polling loop: when the fuel equals the
number of iterations the deadline still admits, the loop returns true
exactly when the pending set empties within the admitted iterations, and
on failure it reports the pending set at the deadline. -/
theorem cesGoF_char (envs : Nat → PollEnv) (maxWait : Nat)
    (tds src : String) :
    ∀ fuel i st tr, i + fuel = cesK maxWait →
      (((cesGoF envs maxWait tds src fuel i st tr).fst = true ↔
        ∃ n, n ≤ fuel ∧ (cesStateFrom envs tds src i st n).pending = []) ∧
       ((cesGoF envs maxWait tds src fuel i st tr).fst = false →
        (cesGoF envs maxWait tds src fuel i st tr).snd.fst
            = (cesStateFrom envs tds src i st fuel).pending ∧
        (cesGoF envs maxWait tds src fuel i st tr).snd.fst ≠ [])) := by
  intro fuel
  induction fuel with
  | zero =>
    intro i st tr _
    constructor
    · simp only [cesGoF, List.isEmpty_iff]
      constructor
      · intro h
        exact ⟨0, le_refl 0, by simpa [cesStateFrom] using h⟩
      · rintro ⟨n, hn, hpend⟩
        interval_cases n
        simpa [cesStateFrom] using hpend
    · intro hfalse
      refine ⟨by simp [cesGoF, cesStateFrom], ?_⟩
      simp only [cesGoF] at hfalse ⊢
      intro hc
      rw [hc] at hfalse
      simp at hfalse
  | succ fuel ih =>
    intro i st tr hiK
    have hguard : 30 * i < maxWait := (lt_cesK maxWait i).mp (by omega)
    by_cases hp : st.pending = []
    · have heq : cesGoF envs maxWait tds src (fuel + 1) i st tr
          = (true, st.pending, tr) := by
        simp [cesGoF, hp]
      rw [heq]
      constructor
      · simp only [true_iff]
        exact ⟨0, Nat.zero_le _, by simpa [cesStateFrom] using hp⟩
      · simp
    · by_cases h1 : (pollOnce (envs i) tds src st).pending = []
      · have heq : cesGoF envs maxWait tds src (fuel + 1) i st tr
            = (true, [], tr ++ [CesEvent.query]) := by
          simp [cesGoF, hguard, hp, h1]
        rw [heq]
        constructor
        · simp only [true_iff]
          exact ⟨1, by omega, by simpa [cesStateFrom] using h1⟩
        · simp
      · have heq : cesGoF envs maxWait tds src (fuel + 1) i st tr
            = cesGoF envs maxWait tds src fuel (i + 1)
                (pollOnce (envs i) tds src st)
                (tr ++ [CesEvent.query, CesEvent.sleep]) := by
          simp [cesGoF, hguard, hp, h1]
        rw [heq]
        have hIH := ih (i + 1) (pollOnce (envs i) tds src st)
          (tr ++ [CesEvent.query, CesEvent.sleep]) (by omega)
        constructor
        · rw [hIH.1]
          constructor
          · rintro ⟨n, hn, hpend⟩
            exact ⟨n + 1, by omega, by simpa [cesStateFrom] using hpend⟩
          · rintro ⟨m, hm, hpend⟩
            cases m with
            | zero => exact absurd (by simpa [cesStateFrom] using hpend) hp
            | succ n =>
              exact ⟨n, by omega, by simpa [cesStateFrom] using hpend⟩
        · intro hfalse
          refine ⟨?_, (hIH.2 hfalse).2⟩
          rw [(hIH.2 hfalse).1]
          simp [cesStateFrom]

/-- C3: `check_export_status` returns true exactly when the pending
camera set becomes empty within the iterations the deadline admits
(iteration `n` starts at elapsed time `30 * n`, admitted while
`30 * n < maxWait`); otherwise it returns false and the cameras it
reports as unresolved are exactly the nonempty pending set at the
deadline. -/
theorem c3_termination (envs : Nat → PollEnv) (maxWait : Nat)
    (cameras : List String) (tds src : String) :
    ((check_export_status envs maxWait cameras tds src).fst = true ↔
      ∃ n, n ≤ cesK maxWait
        ∧ (cesStateAt envs tds src cameras n).pending = []) ∧
    ((check_export_status envs maxWait cameras tds src).fst = false →
      (check_export_status envs maxWait cameras tds src).snd.fst
          = (cesStateAt envs tds src cameras (cesK maxWait)).pending ∧
      (check_export_status envs maxWait cameras tds src).snd.fst ≠ []) := by
  exact cesGoF_char envs maxWait tds src (cesK maxWait) 0
    ⟨cameras.eraseDups, []⟩ [] (by omega)

/-- Witness for `c3_termination`: with a 60-second budget (two admitted
polls) and a job that never finishes, the run fails and reports exactly
the camera pending at the deadline. -/
theorem c3_termination_witness :
    (check_export_status envsStuck 60 ["cam"] ("2024-01-02")
        ("/src")).snd.fst
      = (cesStateAt envsStuck ("2024-01-02") ("/src") ["cam"]
          (cesK 60)).pending ∧
    (check_export_status envsStuck 60 ["cam"] ("2024-01-02")
        ("/src")).snd.fst ≠ [] := by
  exact (c3_termination envsStuck 60 ["cam"] ("2024-01-02") ("/src")).2
    (by decide)

/-- C10: invoked with an empty camera list, the polling loop of
`check_export_status` performs no status query and no poll-interval
sleep (empty event trace) and returns true immediately, for every
environment, deadline, target date and source directory. -/
theorem c10_empty_camera_list (envs : Nat → PollEnv) (maxWait : Nat)
    (tds src : String) :
    check_export_status envs maxWait [] tds src = (true, [], []) := by
  unfold check_export_status
  have he : ([] : List String).eraseDups = [] := rfl
  rw [he]
  cases h : cesK maxWait with
  | zero => simp [cesGoF]
  | succ k => simp [cesGoF]

/-- C4 counterexample: the empty string is a given date string that does
not parse as `YYYY-MM-DD`, yet — because Python `if date:` treats the
empty string like an absent argument — the call falls back to the default
date, issues a trigger request for camera `cam`, and returns a nonempty
list. -/
theorem c4_counterexample :
    strptimeYmd ("") = none ∧
    (export_previous_day_recordings envAccept 28800 [] (some ["cam"])
        (some ("")) none).snd.snd = ["cam"] ∧
    (export_previous_day_recordings envAccept 28800 [] (some ["cam"])
        (some ("")) none).fst ≠ [] := by
  exact ⟨rfl, by decide, by decide⟩

/-- C4 (amended): `export_previous_day_recordings` returns an empty list,
an unchanged start-times map and an empty request trace whenever the
given date string is non-empty and does not parse as `YYYY-MM-DD` (an
empty date string is falsy in Python and falls back to the default date),
or the given hour range has a component outside 0-23 or its start hour
exceeds its end hour. -/
theorem c4_invalid_arguments (env : ExportEnv) (tzOff : Int)
    (st0 : List (String × Nat)) (cams : Option (List String))
    (dateOpt : Option String) (trange : Option (Int × Int)) :
    (∀ d, dateOpt = some d → d ≠ "" → strptimeYmd d = none →
      export_previous_day_recordings env tzOff st0 cams dateOpt trange
        = ([], st0, [])) ∧
    (∀ sh eh, trange = some (sh, eh) →
      ¬(0 ≤ sh ∧ sh ≤ 23 ∧ 0 ≤ eh ∧ eh ≤ 23 ∧ sh ≤ eh) →
      export_previous_day_recordings env tzOff st0 cams dateOpt trange
        = ([], st0, [])) := by
  constructor
  · intro d hdate hne hparse
    subst hdate
    unfold export_previous_day_recordings resolveDate
    simp [hne, hparse]
  · intro sh eh htr hbad
    subst htr
    unfold export_previous_day_recordings resolveHours
    cases hres : resolveDate env dateOpt with
    | none => rfl
    | some p =>
      obtain ⟨y, m, d⟩ := p
      simp [hbad]

/-- Witness for `c4_invalid_arguments`: a malformed date and an inverted
hour range each yield the empty result. -/
theorem c4_invalid_arguments_witness :
    export_previous_day_recordings envAccept 28800 [] (some ["cam"])
        (some ("2024-13-40")) none = ([], [], []) ∧
    export_previous_day_recordings envAccept 28800 [] (some ["cam"])
        none (some (9, 2)) = ([], [], []) := by
  constructor
  · exact (c4_invalid_arguments envAccept 28800 [] (some ["cam"])
      (some ("2024-13-40")) none).1 ("2024-13-40") rfl (by decide)
      (by decide)
  · exact (c4_invalid_arguments envAccept 28800 [] (some ["cam"])
      none (some (9, 2))).2 9 2 rfl (by decide)

/-- C5: for every date string that parses as `YYYY-MM-DD` and every hour
range with `0 ≤ startHour ≤ endHour ≤ 23`, the resolved time window of
`export_previous_day_recordings` satisfies `start ≤ end`, and both
timestamps lie within the target calendar day in the configured timezone
(between `00:00:00` and `23:59:59` of that day). -/
theorem c5_window_within_day (ds : String) (y m d : Nat)
    (_hparse : strptimeYmd ds = some (y, m, d)) (tzOff : Int)
    (sh eh : Int) (h0 : 0 ≤ sh) (hse : sh ≤ eh) (h23 : eh ≤ 23) :
    (timeWindow tzOff y m d sh eh).fst ≤ (timeWindow tzOff y m d sh eh).snd
    ∧ epochOf tzOff y m d 0 0 0 ≤ (timeWindow tzOff y m d sh eh).fst
    ∧ (timeWindow tzOff y m d sh eh).snd ≤ epochOf tzOff y m d 23 59 59 := by
  simp only [timeWindow, epochOf]
  have hD : ∃ D : Int, daysFromCivil y m d = D := ⟨_, rfl⟩
  obtain ⟨D, hDeq⟩ := hD
  rw [hDeq]
  omega

/-- Witness for `c5_window_within_day` at 2024-01-02, hours 1 to 5,
offset +8h. -/
theorem c5_window_within_day_witness :
    (timeWindow 28800 2024 1 2 1 5).fst ≤ (timeWindow 28800 2024 1 2 1 5).snd
    ∧ epochOf 28800 2024 1 2 0 0 0 ≤ (timeWindow 28800 2024 1 2 1 5).fst
    ∧ (timeWindow 28800 2024 1 2 1 5).snd ≤ epochOf 28800 2024 1 2 23 59 59 := by
  exact c5_window_within_day ("2024-01-02") 2024 1 2 (by decide) 28800 1 5
    (by decide) (by decide) (by decide)

/-- The trigger loop appends exactly the accepted cameras to the result,
attempts every camera of the batch, and records the request time of every
accepted camera in the start-times map. -/
theorem runExports_spec (env : ExportEnv) (ts : Int) :
    ∀ (l : List String) (files : List (String × Int))
      (times : List (String × Nat)) (reqs : List String),
      (runExports env ts l (files, times, reqs)).fst
          = files ++ (l.filter (fun c => isAccepted (env.post c))).map
              (fun c => (c, ts)) ∧
      (runExports env ts l (files, times, reqs)).snd.snd = reqs ++ l ∧
      ∀ c, ((c ∈ l ∧ isAccepted (env.post c) = true)
          ∨ lfind times c = some (env.reqClock c)) →
        lfind (runExports env ts l (files, times, reqs)).snd.fst c
          = some (env.reqClock c) := by
  intro l
  induction l with
  | nil =>
    intro files times reqs
    refine ⟨by simp [runExports], by simp [runExports], ?_⟩
    intro c hc
    rcases hc with ⟨hmem, _⟩ | h
    · simp at hmem
    · simpa [runExports] using h
  | cons c0 rest ih =>
    intro files times reqs
    by_cases hacc : isAccepted (env.post c0) = true
    · have heq : runExports env ts (c0 :: rest) (files, times, reqs)
          = runExports env ts rest (files ++ [(c0, ts)],
              lset times c0 (env.reqClock c0), reqs ++ [c0]) := by
        simp [runExports, hacc]
      rw [heq]
      obtain ⟨ih1, ih2, ih3⟩ := ih (files ++ [(c0, ts)])
        (lset times c0 (env.reqClock c0)) (reqs ++ [c0])
      refine ⟨?_, ?_, ?_⟩
      · rw [ih1]
        simp [List.filter_cons, hacc]
      · rw [ih2]
        simp
      · intro c hc
        apply ih3
        rcases hc with ⟨hmem, hca⟩ | h
        · rcases List.mem_cons.1 hmem with rfl | hmem'
          · right
            rw [lfind_lset]
            simp
          · left
            exact ⟨hmem', hca⟩
        · by_cases hc0 : c0 = c
          · subst hc0
            right
            rw [lfind_lset]
            simp
          · right
            rw [lfind_lset, if_neg hc0]
            exact h
    · have heq : runExports env ts (c0 :: rest) (files, times, reqs)
          = runExports env ts rest (files, times, reqs ++ [c0]) := by
        simp [runExports, hacc]
      rw [heq]
      obtain ⟨ih1, ih2, ih3⟩ := ih files times (reqs ++ [c0])
      refine ⟨?_, ?_, ?_⟩
      · rw [ih1]
        simp [List.filter_cons, hacc]
      · rw [ih2]
        simp
      · intro c hc
        apply ih3
        rcases hc with ⟨hmem, hca⟩ | h
        · rcases List.mem_cons.1 hmem with rfl | hmem'
          · exact absurd hca hacc
          · left
            exact ⟨hmem', hca⟩
        · right
          exact h

/-- C6: with a resolvable date and a valid hour range,
`export_previous_day_recordings` returns exactly the cameras whose
trigger request was accepted (HTTP 200 or 201), in order, each paired
with the window start; every camera of the batch is attempted regardless
of other cameras' failures; and every accepted camera's request time is
recorded in the start-times map. -/
theorem c6_accepted_cameras (env : ExportEnv) (tzOff : Int)
    (st0 : List (String × Nat)) (cameras : Option (List String))
    (dateOpt : Option String) (trange : Option (Int × Int))
    (y m d : Nat) (sh eh : Int)
    (hd : resolveDate env dateOpt = some (y, m, d))
    (hh : resolveHours trange = some (sh, eh)) :
    (export_previous_day_recordings env tzOff st0 cameras dateOpt
        trange).fst
      = ((cameras.getD env.discovered).filter
          (fun c => isAccepted (env.post c))).map
          (fun c => (c, (timeWindow tzOff y m d sh eh).fst)) ∧
    (export_previous_day_recordings env tzOff st0 cameras dateOpt
        trange).snd.snd = cameras.getD env.discovered ∧
    ∀ c ∈ cameras.getD env.discovered, isAccepted (env.post c) = true →
      lfind (export_previous_day_recordings env tzOff st0 cameras dateOpt
          trange).snd.fst c = some (env.reqClock c) := by
  have heq : export_previous_day_recordings env tzOff st0 cameras dateOpt
      trange = runExports env (timeWindow tzOff y m d sh eh).fst
        (cameras.getD env.discovered) ([], st0, []) := by
    unfold export_previous_day_recordings
    rw [hd, hh]
  rw [heq]
  obtain ⟨h1, h2, h3⟩ := runExports_spec env
    (timeWindow tzOff y m d sh eh).fst (cameras.getD env.discovered)
    [] st0 []
  exact ⟨by simpa using h1, by simpa using h2,
    fun c hm ha => h3 c (Or.inl ⟨hm, ha⟩)⟩

/-- Witness for `c6_accepted_cameras`: of cameras a (201), b (500),
c (transport error), d (200), the result names a and d, every camera was
attempted, and a's request time 41 is recorded. -/
theorem c6_accepted_cameras_witness :
    (export_previous_day_recordings envMixed 28800 []
        (some (["a", "b", "c", "d"])) (some ("2024-01-02"))
        (some (1, 5))).snd.snd = ["a", "b", "c", "d"] ∧
    lfind (export_previous_day_recordings envMixed 28800 []
        (some (["a", "b", "c", "d"])) (some ("2024-01-02"))
        (some (1, 5))).snd.fst ("a") = some 41 := by
  have h := c6_accepted_cameras envMixed 28800 []
    (some (["a", "b", "c", "d"])) (some ("2024-01-02")) (some (1, 5))
    2024 1 2 1 5 (by decide) (by decide)
  exact ⟨h.2.1, h.2.2 ("a") (by decide) (by decide)⟩

/-- C7: `get_real_file_path` returns the empty string on an empty input
path, and for every non-empty input path returns the input's base name
joined to the configured source directory. (The function is a total Lean
function: it raises no exception on any input.) -/
theorem c7_path_resolution (src p : String) :
    (p = "" → get_real_file_path src p = "") ∧
    (p ≠ "" → get_real_file_path src p = pathJoin src (pathBasename p)) := by
  constructor
  · intro h
    simp [get_real_file_path, h]
  · intro h
    simp [get_real_file_path, h]

/-- Witness for `c7_path_resolution`: the empty path and a container
path. -/
theorem c7_path_resolution_witness :
    get_real_file_path ("/src") ("") = "" ∧
    get_real_file_path ("/src") ("/media/frigate/exports/exp.mp4")
      = pathJoin ("/src") (pathBasename ("/media/frigate/exports/exp.mp4"))
    := by
  exact ⟨(c7_path_resolution ("/src") ("")).1 rfl,
    (c7_path_resolution ("/src") ("/media/frigate/exports/exp.mp4")).2
      (by decide)⟩

theorem cleanSweep_eq (cutoff : Int) (files : List FsFile) :
    cleanSweep cutoff files
      = (files.filter (fun f => f.isRegular && decide (f.mtime < cutoff)),
         files.filter
           (fun f => !(f.isRegular && decide (f.mtime < cutoff)))) := by
  induction files with
  | nil => simp [cleanSweep]
  | cons f rest ih =>
    cases h : (f.isRegular && decide (f.mtime < cutoff)) with
    | true =>
      have hs : cleanSweep cutoff (f :: rest)
          = (f :: (cleanSweep cutoff rest).fst,
             (cleanSweep cutoff rest).snd) := by
        simp [cleanSweep, h]
      rw [hs, ih, List.filter_cons, List.filter_cons, if_pos h,
        if_neg (by simp [h])]
    | false =>
      have hs : cleanSweep cutoff (f :: rest)
          = ((cleanSweep cutoff rest).fst,
             f :: (cleanSweep cutoff rest).snd) := by
        simp [cleanSweep, h]
      rw [hs, ih, List.filter_cons, List.filter_cons,
        if_neg (by simp [h]), if_pos (by simp [h])]

/-- C8: `clean_old_exports` deletes exactly the regular files of the
destination listing whose modification time is strictly older than
`now` minus the retention period: a regular file strictly older than the
cutoff (e.g. one second older) is deleted, a regular file at or newer
than the cutoff is retained, and an immediate second run on the
remaining listing deletes nothing. -/
theorem c8_retention_sweep (now : Int) (retentionDays : Nat)
    (files : List FsFile) :
    (clean_old_exports now retentionDays files).fst
      = files.filter (fun f => f.isRegular
          && decide (f.mtime < now - (retentionDays : Int) * 86400)) ∧
    (∀ f ∈ files, f.isRegular = true →
      (f.mtime < now - (retentionDays : Int) * 86400 →
        f ∈ (clean_old_exports now retentionDays files).fst) ∧
      (now - (retentionDays : Int) * 86400 ≤ f.mtime →
        f ∉ (clean_old_exports now retentionDays files).fst ∧
        f ∈ (clean_old_exports now retentionDays files).snd)) ∧
    clean_old_exports now retentionDays
        (clean_old_exports now retentionDays files).snd
      = ([], (clean_old_exports now retentionDays files).snd) := by
  unfold clean_old_exports
  rw [cleanSweep_eq]
  refine ⟨rfl, ?_, ?_⟩
  · intro f hf hreg
    constructor
    · intro hlt
      simp [List.mem_filter, hf, hreg, hlt]
    · intro hge
      constructor
      · intro hc
        rw [List.mem_filter] at hc
        simp only [Bool.and_eq_true, decide_eq_true_eq] at hc
        omega
      · simp only [List.mem_filter, Bool.and_eq_true, Bool.not_eq_true',
          Bool.and_eq_false_iff, decide_eq_false_iff_not]
        exact ⟨hf, Or.inr (by omega)⟩
  · rw [cleanSweep_eq]
    simp only [Prod.mk.injEq]
    constructor
    · rw [List.filter_eq_nil_iff]
      intro f hf
      rw [List.mem_filter] at hf
      simp only [Bool.not_eq_true'] at hf
      simp [hf.2]
    · rw [List.filter_eq_self]
      intro f hf
      rw [List.mem_filter] at hf
      exact hf.2

/-- Witness for `c8_retention_sweep`: with `now = 1000000` and one
retention day (cutoff 913600), the regular file one second older than
the cutoff is deleted while the one exactly at the cutoff is retained. -/
theorem c8_retention_sweep_witness :
    (⟨"old", 913599, true⟩ : FsFile)
        ∈ (clean_old_exports 1000000 1
            [⟨"old", 913599, true⟩, ⟨"edge", 913600, true⟩]).fst ∧
    (⟨"edge", 913600, true⟩ : FsFile)
        ∉ (clean_old_exports 1000000 1
            [⟨"old", 913599, true⟩, ⟨"edge", 913600, true⟩]).fst ∧
    (⟨"edge", 913600, true⟩ : FsFile)
        ∈ (clean_old_exports 1000000 1
            [⟨"old", 913599, true⟩, ⟨"edge", 913600, true⟩]).snd := by
  have h := (c8_retention_sweep 1000000 1
    [⟨"old", 913599, true⟩, ⟨"edge", 913600, true⟩]).2.1
  refine ⟨?_, ?_, ?_⟩
  · exact (h ⟨"old", 913599, true⟩ (by decide) rfl).1 (by decide)
  · exact ((h ⟨"edge", 913600, true⟩ (by decide) rfl).2 (by decide)).1
  · exact ((h ⟨"edge", 913600, true⟩ (by decide) rfl).2 (by decide)).2

/-- C9: `check_and_move_exported_files` creates the destination
directory when it is absent as its first action, before any file move
(every move event comes strictly after the directory creation at
position 0); and a matched export record whose resolved source file does
not exist on disk is skipped: it contributes nothing to the moved-file
count or the event trace, and the remaining records are processed
exactly as if it were not there. -/
theorem c9_mkdir_and_skip (env : MoveEnv) (cameras : List String)
    (dateOpt : Option String) (src tdsDefault : String) :
    (env.ok = true → env.destDirExists = false →
      (check_and_move_exported_files env cameras dateOpt src
          tdsDefault).snd.head? = some MvEvent.mkdirDest ∧
      ∀ n f, (check_and_move_exported_files env cameras dateOpt src
          tdsDefault).snd.get? n = some (MvEvent.move f) → 0 < n) ∧
    (∀ (fs : String → Bool) (e : ExportRecord) (rest : List ExportRecord),
      (e.video_path = "" ∨ fs (get_real_file_path src e.video_path) = false)
      → moveLoop src fs (e :: rest) = moveLoop src fs rest) := by
  constructor
  · intro hok hdir
    unfold check_and_move_exported_files
    rw [hok, hdir]
    simp only [if_true, Bool.false_eq_true, if_false]
    cases hres : resolveTds dateOpt tdsDefault with
    | none =>
      refine ⟨rfl, ?_⟩
      intro n f hn
      cases n with
      | zero => simp at hn
      | succ k => simp at hn
    | some tds =>
      refine ⟨rfl, ?_⟩
      intro n f hn
      cases n with
      | zero => simp at hn
      | succ k => omega
  · intro fs e rest h
    rcases h with h | h
    · simp [moveLoop, h]
    · simp [moveLoop, h]

/-- Witness for `c9_mkdir_and_skip`: with the destination directory
absent the first event is its creation, and a record whose resolved file
is missing leaves the move loop unchanged. -/
theorem c9_mkdir_and_skip_witness :
    (check_and_move_exported_files envMove ["cam"] none ("/src")
        ("2024-01-02")).snd.head? = some MvEvent.mkdirDest ∧
    moveLoop ("/src") (fun _ => false) [recDone]
      = moveLoop ("/src") (fun _ => false) [] := by
  have h := c9_mkdir_and_skip envMove ["cam"] none ("/src") ("2024-01-02")
  exact ⟨(h.1 rfl rfl).1, h.2 (fun _ => false) recDone [] (Or.inr rfl)⟩
